import Mathlib

/-!
# Verification of the Quill embed module placeholder lifecycle

A shallow embedding of `src/plugins/rich-editor/src/scripts/QuillEmbedModule.js`
(with `onImageUploadFailure` taken from the earlier revision of the same class
kept in `src/unnamed/part_000`).  The module tracks in-flight embed operations in
a JavaScript `Map` (`currentUploads`) from a lookup key (URL string or file
handle) to the loading blot inserted into the document, and resolves each
placeholder into a result or error blot when the network request settles.
-/

/-- A lookup key of `currentUploads`: either a URL string (scrape flow) or a
file handle (upload flow).  JavaScript `Map` keys compare strings by value and
`File` objects by identity; a string key never equals a file key, which the sum
type reflects.  File identity is modelled by a numeric handle. -/
inductive LookupKey
  | url (u : String)
  | file (f : Nat)
deriving DecidableEq, Repr

/-- Blot identifiers: each blot created during a run gets a fresh id. -/
abbrev BlotId := Nat

/-- Document node contents, one constructor per Parchment blot kind the module
creates (`embed-loading`, `embed-link`, `embed-image`, `embed-error`). -/
inductive Blot
  | loading
  | embedLink (url name linkImage excerpt : String)
  | embedImage (url : String) (alt : Option String)
  | embedError (messages : List String)
deriving DecidableEq, Repr

/-- First entry of an association list with the given key, i.e. JS
`Map.prototype.get` on the entry list. -/
def findEntry {κ α : Type} [DecidableEq κ] : List (κ × α) → κ → Option α
  | [], _ => none
  | (k', v) :: rest, k => if k' = k then some v else findEntry rest k

@[simp]
theorem findEntry_nil {κ α : Type} [DecidableEq κ] (k : κ) :
    findEntry ([] : List (κ × α)) k = none := rfl

@[simp]
theorem findEntry_cons {κ α : Type} [DecidableEq κ] (k k' : κ) (v : α)
    (rest : List (κ × α)) :
    findEntry ((k', v) :: rest) k = if k' = k then some v else findEntry rest k := rfl

/-- Overwriting an entry in place when its key matches, used by `Registry.set`. -/
def overwriteEntry {κ α : Type} [DecidableEq κ] (k : κ) (v : α) (p : κ × α) : κ × α :=
  if p.1 = k then (k, v) else p

@[simp]
theorem overwriteEntry_pair {κ α : Type} [DecidableEq κ] (k k' : κ) (v v' : α) :
    overwriteEntry k v (k', v') = if k' = k then (k, v) else (k', v') := by
  by_cases h : k' = k
  · simp [overwriteEntry, h]
  · simp [overwriteEntry, h]

/-- `currentUploads`, a JS `Map` from lookup keys to blot ids, modelled by its
(insertion-ordered) entry list. -/
structure Registry where
  entries : List (LookupKey × BlotId)
deriving DecidableEq, Repr

namespace Registry

/-- `Map.prototype.get`. -/
def get (m : Registry) (k : LookupKey) : Option BlotId :=
  findEntry m.entries k

/-- `Map.prototype.has`. -/
def has (m : Registry) (k : LookupKey) : Bool :=
  (m.get k).isSome

/-- `Map.prototype.set`: overwrites the entry under `k` in place when present,
otherwise appends a new entry. -/
def set (m : Registry) (k : LookupKey) (v : BlotId) : Registry :=
  if m.has k then
    ⟨m.entries.map (overwriteEntry k v)⟩
  else
    ⟨m.entries ++ [(k, v)]⟩

/-- `Map.prototype.delete`: removes the entry under `k` (no-op if absent). -/
def delete (m : Registry) (k : LookupKey) : Registry :=
  ⟨m.entries.filter (fun p => p.1 ≠ k)⟩

end Registry

/-! ## Basic lemmas about `findEntry` and the registry operations -/

theorem findEntry_eq_none_iff {κ α : Type} [DecidableEq κ]
    (l : List (κ × α)) (k : κ) :
    findEntry l k = none ↔ k ∉ l.map Prod.fst := by
  induction l with
  | nil => simp
  | cons p rest ih =>
    obtain ⟨k', v⟩ := p
    by_cases h : k' = k
    · subst h
      simp
    · simp [h, ih, Ne.symm h]

theorem findEntry_mem {κ α : Type} [DecidableEq κ]
    {l : List (κ × α)} {k : κ} {v : α} (h : findEntry l k = some v) :
    (k, v) ∈ l := by
  induction l with
  | nil => simp at h
  | cons p rest ih =>
    obtain ⟨k', v'⟩ := p
    by_cases hk : k' = k
    · subst hk
      simp at h
      simp [h]
    · simp [hk] at h
      exact List.mem_cons_of_mem _ (ih h)

theorem findEntry_map_overwrite_self {κ α : Type} [DecidableEq κ]
    (l : List (κ × α)) (k : κ) (v : α) (h : findEntry l k ≠ none) :
    findEntry (l.map (overwriteEntry k v)) k = some v := by
  induction l with
  | nil => simp at h
  | cons p rest ih =>
    obtain ⟨k', v'⟩ := p
    by_cases hk : k' = k
    · simp [hk]
    · simp only [findEntry_cons, if_neg hk] at h
      simp [hk, ih h]

theorem findEntry_map_overwrite_ne {κ α : Type} [DecidableEq κ]
    (l : List (κ × α)) {k k' : κ} (v : α) (h : k' ≠ k) :
    findEntry (l.map (overwriteEntry k v)) k' = findEntry l k' := by
  induction l with
  | nil => simp
  | cons p rest ih =>
    obtain ⟨k'', v'⟩ := p
    by_cases hk : k'' = k
    · subst hk
      simp [Ne.symm h, ih]
    · simp [hk, ih]

theorem findEntry_append {κ α : Type} [DecidableEq κ]
    (l l' : List (κ × α)) (k : κ) :
    findEntry (l ++ l') k =
      (match findEntry l k with
       | some v => some v
       | none => findEntry l' k) := by
  induction l with
  | nil => simp
  | cons p rest ih =>
    obtain ⟨k', v'⟩ := p
    by_cases hk : k' = k
    · simp [hk]
    · simp [hk, ih]

namespace Registry

@[simp]
theorem get_set_self (m : Registry) (k : LookupKey) (v : BlotId) :
    (m.set k v).get k = some v := by
  cases hget : m.get k with
  | some w =>
    have hhas : m.has k = true := by simp [has, hget]
    unfold set
    rw [if_pos hhas]
    unfold get at hget ⊢
    exact findEntry_map_overwrite_self m.entries k v (by simp [hget])
  | none =>
    have hhas : ¬ m.has k = true := by simp [has, hget]
    unfold set
    rw [if_neg hhas]
    unfold get at hget ⊢
    rw [findEntry_append, hget]
    simp

theorem get_set_ne (m : Registry) {k k' : LookupKey} (v : BlotId) (h : k' ≠ k) :
    (m.set k v).get k' = m.get k' := by
  by_cases hhas : m.has k = true
  · unfold set
    rw [if_pos hhas]
    exact findEntry_map_overwrite_ne m.entries v h
  · unfold set
    rw [if_neg hhas]
    unfold get
    rw [findEntry_append]
    cases hfind : findEntry m.entries k' with
    | some w => simp
    | none => simp [Ne.symm h]

@[simp]
theorem get_delete_self (m : Registry) (k : LookupKey) :
    (m.delete k).get k = none := by
  unfold delete get
  induction m.entries with
  | nil => simp
  | cons p rest ih =>
    obtain ⟨k', v⟩ := p
    by_cases hk : k' = k
    · simpa [List.filter_cons, hk] using ih
    · simpa [List.filter_cons, hk] using ih

theorem get_delete_ne (m : Registry) {k k' : LookupKey} (h : k' ≠ k) :
    (m.delete k).get k' = m.get k' := by
  unfold delete get
  induction m.entries with
  | nil => simp
  | cons p rest ih =>
    obtain ⟨k'', v⟩ := p
    by_cases hk : k'' = k
    · subst hk
      simpa [List.filter_cons, Ne.symm h] using ih
    · by_cases hk' : k'' = k'
      · subst hk'
        simp [List.filter_cons, hk, Ne.symm h]
      · simpa [List.filter_cons, hk, hk'] using ih

/-- Deleting an absent key leaves the map unchanged. -/
theorem delete_of_get_none {m : Registry} {k : LookupKey} (h : m.get k = none) :
    m.delete k = m := by
  unfold delete
  cases m with
  | mk entries =>
    simp only [mk.injEq]
    unfold get at h
    rw [findEntry_eq_none_iff] at h
    apply List.filter_eq_self.mpr
    intro p hp
    simp only [ne_eq, decide_eq_true_eq]
    intro hc
    exact h (hc ▸ List.mem_map_of_mem Prod.fst hp)

end Registry

/-! ## The editor state and the module's operations

The Quill document is modelled as a position-ordered list of blots, each
carrying its id.  `lastSelection` is the tracked cursor index, `nextId` the
supply of fresh blot ids (`Parchment.create` always makes a fresh blot, whether
or not it is subsequently attached to the document), and `log` the sequence of
`logError` calls. -/

structure EditorState where
  doc : List (BlotId × Blot)
  currentUploads : Registry
  hooks : List (BlotId × LookupKey)
  lastSelection : Nat
  nextId : Nat
  log : List String
deriving DecidableEq, Repr

/-- Insert a blot at a document position (`quill.insertEmbed`). -/
def insertAt (doc : List (BlotId × Blot)) (i : Nat) (x : BlotId × Blot) :
    List (BlotId × Blot) :=
  doc.take i ++ x :: doc.drop i

/-- `blot.replaceWith(other)`: the node with id `oldId` is replaced in place by
a new node (no-op when `oldId` is not attached to the document). -/
def replaceWith (doc : List (BlotId × Blot)) (oldId newId : BlotId) (b : Blot) :
    List (BlotId × Blot) :=
  doc.map (fun p => if p.1 = oldId then (newId, b) else p)

/-- The delete callback registered on a loading blot, looked up by blot id. -/
def hookFor : List (BlotId × LookupKey) → BlotId → Option LookupKey :=
  fun hooks b => findEntry hooks b

/-- The empty editor: fresh module instance, `currentUploads = new Map()`,
`lastSelection = {index: 0, length: 0}`. -/
def initState : EditorState :=
  { doc := []
    currentUploads := ⟨[]⟩
    hooks := []
    lastSelection := 0
    nextId := 0
    log := [] }

/-- `createLoadingEmbed(lookupKey)` (QuillEmbedModule.js lines 199–214):
inserts an `embed-loading` blot at the last selection index, advances the
selection past it, registers a delete callback that removes `lookupKey` from
`currentUploads` if present, and stores the blot under `lookupKey`.

Quill clamps out-of-range indices, hence the `min`; the
`quill.scroll.descendant(EmbedLoadingBlot, index)` lookup returns the blot just
inserted at that index (see `insertAt_get_self` below). -/
def createLoadingEmbed (s : EditorState) (lookupKey : LookupKey) : EditorState :=
  let i := min s.lastSelection s.doc.length
  let blot := s.nextId
  { doc := insertAt s.doc i (blot, Blot.loading)
    currentUploads := s.currentUploads.set lookupKey blot
    hooks := (blot, lookupKey) :: s.hooks
    lastSelection := i + 1
    nextId := s.nextId + 1
    log := s.log }

/-- External deletion of a document node (undo or edit removing a placeholder):
Quill detaches the blot, which fires its registered delete callback.  The
callback body is `if (this.currentUploads.has(lookupKey)) delete(lookupKey)`,
where `lookupKey` is the key captured at the blot's creation — it does not
check that the stored node is the blot being deleted. -/
def externalDelete (s : EditorState) (id : BlotId) : EditorState :=
  if s.doc.any (fun p => p.1 = id) then
    { s with
      doc := s.doc.filter (fun p => p.1 ≠ id)
      currentUploads :=
        match hookFor s.hooks id with
        | some k =>
          if s.currentUploads.has k then s.currentUploads.delete k
          else s.currentUploads
        | none => s.currentUploads }
  else s

/-- `String.prototype.startsWith` evaluated over the character list, used by
the scrape failure handler. -/
def charsStartWith : List Char → List Char → Bool
  | _, [] => true
  | [], _ :: _ => false
  | c :: cs, d :: ds => if c = d then charsStartWith cs ds else false

def strStartsWith (s pre : String) : Bool :=
  charsStartWith s.data pre.data

/-- The scrape response payload (`ScrapeResult` typedef). -/
structure ScrapeResult where
  type : String
  url : String
  name : String
  photoUrl : String
  body : String
deriving DecidableEq, Repr

/-- The resolution tail shared verbatim by every result constructor in the
source (`createSiteEmbed` lines 133–140, `createExternalImageEmbed` lines
157–164, `createErrorEmbed` lines 182–190, `onImageUploadSuccess` lines
267–275): create the result blot (fresh id, detached), look up the tracked
loading blot under the key, replace it when present — "The loading blot may
have been undone/deleted since we created it." — and delete the key. -/
def resolveTracked (s : EditorState) (k : LookupKey) (b : Blot) : EditorState :=
  let embedId := s.nextId
  match s.currentUploads.get k with
  | some completedBlot =>
    { s with
      doc := replaceWith s.doc completedBlot embedId b
      currentUploads := s.currentUploads.delete k
      nextId := s.nextId + 1 }
  | none =>
    { s with
      currentUploads := s.currentUploads.delete k
      nextId := s.nextId + 1 }

/-- `createSiteEmbed(scrapeResult)` (lines 116–141): builds an `embed-link`
blot from `{url, name, linkImage: photoUrl, excerpt: body}` and resolves the
key taken from the payload's `url` field. -/
def createSiteEmbed (s : EditorState) (r : ScrapeResult) : EditorState :=
  resolveTracked s (.url r.url) (Blot.embedLink r.url r.name r.photoUrl r.body)

/-- `createExternalImageEmbed(scrapeResult)` (lines 143–165): builds an
`embed-image` blot from `{url: photoUrl, alt: name}` — the displayed URL is the
photo URL — and resolves the key taken from the payload's `url` field. -/
def createExternalImageEmbed (s : EditorState) (r : ScrapeResult) : EditorState :=
  resolveTracked s (.url r.url) (Blot.embedImage r.photoUrl (some r.name))

/-- `createErrorEmbed(lookupKey, error)` (lines 174–191): logs the error
message, then either inserts a standalone `embed-error` blot at the last
selection (when `lookupKey == null`), or creates a detached error blot,
replaces the tracked loading blot with it when the registry still holds the
key, and deletes the key.  When the key is non-null and the registry entry is
absent, the detached error blot is never attached to the document. -/
def createErrorEmbed (s : EditorState) (lookupKey : Option LookupKey)
    (msg : String) : EditorState :=
  let s := { s with log := s.log ++ [msg] }
  match lookupKey with
  | none =>
    { s with
      doc := insertAt s.doc (min s.lastSelection s.doc.length)
        (s.nextId, Blot.embedError [msg])
      nextId := s.nextId + 1 }
  | some k =>
    resolveTracked s k (Blot.embedError [msg])

/-- `onImageUploadSuccess(file, response)` (lines 266–276): builds an
`embed-image` blot from the response URL and resolves the file key. -/
def onImageUploadSuccess (s : EditorState) (f : Nat) (responseUrl : String) :
    EditorState :=
  resolveTracked s (.file f) (Blot.embedImage responseUrl none)

/-- The success continuation of `scrapeMedia(url)` (lines 64–75): dispatch on
the payload's `type` discriminator — the `switch` over `result.data.type`. -/
def scrapeSuccess (s : EditorState) (url : String) (r : ScrapeResult) :
    EditorState :=
  if r.type = "site" then createSiteEmbed s r
  else if r.type = "image" then createExternalImageEmbed s r
  else createErrorEmbed s (some (.url url))
    "That type of embed is not currently supported."

/-- The `catch` payload of the scrape request: `responseDataMessage` is
`error.response.data.message` when all three links are present, and
`errMessage` is `error.message` of the error object itself. -/
structure AjaxFailure where
  responseDataMessage : Option String
  errMessage : String
deriving DecidableEq, Repr

/-- The failure continuation of `scrapeMedia(url)` (lines 76–90): when the
payload carries a truthy `response.data.message` (present and non-empty), a
message starting with "Failed to load URL" is replaced by a generic one and any
other message is surfaced verbatim; otherwise the raw error is passed on.  All
paths resolve the error under the submitted URL key. -/
def scrapeFailure (s : EditorState) (url : String) (e : AjaxFailure) :
    EditorState :=
  match e.responseDataMessage with
  | some message =>
    if message ≠ "" then
      if strStartsWith message "Failed to load URL" then
        createErrorEmbed s (some (.url url))
          "There was an error processing that embed link."
      else
        createErrorEmbed s (some (.url url)) message
    else
      createErrorEmbed s (some (.url url)) e.errMessage
  | none =>
    createErrorEmbed s (some (.url url)) e.errMessage

/-- `onImageUploadFailure(file, error)` from the earlier revision of the module
(`src/unnamed/part_000`, lines 252–270).  After the guarded
`if (loadingBlot) loadingBlot.replaceWith(errorBlot)` it calls
`loadingBlot.replaceWith(errorBlot)` a second time, unconditionally: when the
registry no longer holds the file key, `loadingBlot` is `undefined` and the
call throws a `TypeError`, modelled by `Except.error`.  (When the blot is
present the duplicated call targets an id already replaced, a no-op for
`replaceWith`.) -/
def onImageUploadFailure (s : EditorState) (file : Option LookupKey)
    (msg : String) : Except String EditorState :=
  let s := { s with log := s.log ++ [msg] }
  match file with
  | none =>
    .ok { s with
          doc := insertAt s.doc (min s.lastSelection s.doc.length)
            (s.nextId, Blot.embedError [msg])
          nextId := s.nextId + 1 }
  | some f =>
    let errorId := s.nextId
    match s.currentUploads.get f with
    | some loadingBlot =>
      let doc1 := replaceWith s.doc loadingBlot errorId (Blot.embedError [msg])
      let doc2 := replaceWith doc1 loadingBlot errorId (Blot.embedError [msg])
      .ok { s with
            doc := doc2
            currentUploads := s.currentUploads.delete f
            nextId := s.nextId + 1 }
    | none =>
      .error "TypeError: loadingBlot is undefined"

/-! ## Operation traces and reachable states -/

/-- One externally triggered event processed by the module. -/
inductive Op
  | create (k : LookupKey)
  | extDelete (id : BlotId)
  | scrapeOk (url : String) (r : ScrapeResult)
  | scrapeErr (url : String) (e : AjaxFailure)
  | uploadOk (f : Nat) (responseUrl : String)
  | resolveErr (k : Option LookupKey) (msg : String)
deriving DecidableEq, Repr

def applyOp (s : EditorState) : Op → EditorState
  | .create k => createLoadingEmbed s k
  | .extDelete id => externalDelete s id
  | .scrapeOk url r => scrapeSuccess s url r
  | .scrapeErr url e => scrapeFailure s url e
  | .uploadOk f u => onImageUploadSuccess s f u
  | .resolveErr k msg => createErrorEmbed s k msg

def run (s : EditorState) (ops : List Op) : EditorState :=
  ops.foldl applyOp s

/-- Sanity check for the `descendant` lookup in `createLoadingEmbed`: the blot
found at the insertion index is the one just inserted. -/
theorem insertAt_get_self (doc : List (BlotId × Blot)) (i : Nat)
    (x : BlotId × Blot) (h : i ≤ doc.length) :
    (insertAt doc i x)[i]? = some x := by
  unfold insertAt
  rw [List.getElem?_append_right (by simp [Nat.min_eq_left h])]
  simp [List.length_take, Nat.min_eq_left h]

theorem mem_insertAt {doc : List (BlotId × Blot)} {i : Nat}
    {x y : BlotId × Blot} :
    y ∈ insertAt doc i x ↔ y = x ∨ y ∈ doc := by
  unfold insertAt
  constructor
  · intro h
    rcases List.mem_append.mp h with h1 | h2
    · exact Or.inr (List.mem_of_mem_take h1)
    · rcases List.mem_cons.mp h2 with h3 | h4
      · exact Or.inl h3
      · exact Or.inr (List.mem_of_mem_drop h4)
  · intro h
    rcases h with h1 | h2
    · exact List.mem_append.mpr (Or.inr (List.mem_cons.mpr (Or.inl h1)))
    · rw [← List.take_append_drop i doc] at h2
      rcases List.mem_append.mp h2 with h3 | h4
      · exact List.mem_append.mpr (Or.inl h3)
      · exact List.mem_append.mpr (Or.inr (List.mem_cons.mpr (Or.inr h4)))

/-! ## Further registry lemmas -/

namespace Registry

theorem mem_of_get {m : Registry} {k : LookupKey} {v : BlotId}
    (h : m.get k = some v) : (k, v) ∈ m.entries :=
  findEntry_mem h

theorem get_none_of_not_has {m : Registry} {k : LookupKey}
    (h : ¬ m.has k = true) : m.get k = none := by
  unfold has at h
  cases hg : m.get k with
  | some w => exact absurd (by simp [hg]) h
  | none => rfl

theorem mem_set_cases {m : Registry} {k : LookupKey} {v : BlotId}
    {p : LookupKey × BlotId} (h : p ∈ (m.set k v).entries) :
    p = (k, v) ∨ (p ∈ m.entries ∧ p.1 ≠ k) := by
  unfold set at h
  by_cases hhas : m.has k = true
  · rw [if_pos hhas] at h
    obtain ⟨q, hq, hqe⟩ := List.mem_map.mp h
    obtain ⟨qk, qv⟩ := q
    by_cases hqk : qk = k
    · left
      rw [← hqe]
      simp [hqk]
    · right
      have hp : p = (qk, qv) := by rw [← hqe]; simp [hqk]
      rw [hp]
      exact ⟨hq, hqk⟩
  · rw [if_neg hhas] at h
    rcases List.mem_append.mp h with h1 | h2
    · right
      refine ⟨h1, ?_⟩
      have hnone := get_none_of_not_has hhas
      unfold get at hnone
      rw [findEntry_eq_none_iff] at hnone
      intro hc
      exact hnone (hc ▸ List.mem_map_of_mem Prod.fst h1)
    · left
      simpa using h2

theorem keys_set_nodup {m : Registry} (hm : (m.entries.map Prod.fst).Nodup)
    (k : LookupKey) (v : BlotId) :
    ((m.set k v).entries.map Prod.fst).Nodup := by
  unfold set
  by_cases hhas : m.has k = true
  · rw [if_pos hhas]
    show ((m.entries.map (overwriteEntry k v)).map Prod.fst).Nodup
    rw [List.map_map]
    have : m.entries.map (Prod.fst ∘ overwriteEntry k v) = m.entries.map Prod.fst := by
      apply List.map_congr_left
      intro p _
      obtain ⟨pk, pv⟩ := p
      by_cases hpk : pk = k
      · simp [Function.comp, hpk]
      · simp [Function.comp, hpk]
    rw [this]
    exact hm
  · rw [if_neg hhas]
    show ((m.entries ++ [(k, v)]).map Prod.fst).Nodup
    rw [List.map_append]
    rw [List.nodup_append]
    refine ⟨hm, by simp, ?_⟩
    intro a ha hb
    simp only [List.map_cons, List.map_nil, List.mem_cons, List.not_mem_nil,
      or_false] at hb
    subst hb
    have hnone := get_none_of_not_has hhas
    unfold get at hnone
    rw [findEntry_eq_none_iff] at hnone
    exact hnone ha

theorem mem_delete {m : Registry} {k : LookupKey} {p : LookupKey × BlotId} :
    p ∈ (m.delete k).entries ↔ p ∈ m.entries ∧ p.1 ≠ k := by
  unfold delete
  simp [List.mem_filter]

theorem keys_delete_nodup {m : Registry} (hm : (m.entries.map Prod.fst).Nodup)
    (k : LookupKey) :
    ((m.delete k).entries.map Prod.fst).Nodup := by
  unfold delete
  exact List.Nodup.sublist ((m.entries.filter_sublist).map Prod.fst) hm

end Registry

theorem mem_replaceWith_of_ne {doc : List (BlotId × Blot)} {oldId newId : BlotId}
    {b : Blot} {q : BlotId × Blot} (hq : q ∈ doc) (hne : q.1 ≠ oldId) :
    q ∈ replaceWith doc oldId newId b := by
  unfold replaceWith
  have he : (fun p => if p.1 = oldId then (newId, b) else p) q = q := by
    simp [hne]
  exact he ▸ List.mem_map_of_mem _ hq

/-! ## The registry/document invariant -/

/-- The invariant maintained by every operation: registry keys are unique
(at most one entry per key), and every entry points to a loading blot that is
still attached to the document, whose delete hook captures exactly that
entry's key, and whose id is below the fresh-id supply. -/
def ModuleInv (s : EditorState) : Prop :=
  (s.currentUploads.entries.map Prod.fst).Nodup ∧
  ∀ p ∈ s.currentUploads.entries,
    (p.2, Blot.loading) ∈ s.doc ∧
    hookFor s.hooks p.2 = some p.1 ∧
    p.2 < s.nextId

theorem inv_initState : ModuleInv initState := by
  refine ⟨by simp [initState], ?_⟩
  intro p hp
  simp [initState] at hp

theorem inv_createLoadingEmbed {s : EditorState} (h : ModuleInv s) (k : LookupKey) :
    ModuleInv (createLoadingEmbed s k) := by
  obtain ⟨hnd, hent⟩ := h
  refine ⟨Registry.keys_set_nodup hnd k s.nextId, ?_⟩
  intro p hp
  have hp' : p ∈ (s.currentUploads.set k s.nextId).entries := hp
  rcases Registry.mem_set_cases hp' with hpe | ⟨hpm, hpk⟩
  · subst hpe
    refine ⟨mem_insertAt.mpr (Or.inl rfl), ?_, Nat.lt_succ_self _⟩
    simp [createLoadingEmbed, hookFor]
  · obtain ⟨hdoc, hhook, hlt⟩ := hent p hpm
    refine ⟨mem_insertAt.mpr (Or.inr hdoc), ?_, Nat.lt_succ_of_lt hlt⟩
    show findEntry ((s.nextId, k) :: s.hooks) p.2 = some p.1
    rw [findEntry_cons, if_neg (Ne.symm (Nat.ne_of_lt hlt))]
    exact hhook

theorem inv_resolveTracked {s : EditorState} (h : ModuleInv s) (k : LookupKey)
    (b : Blot) : ModuleInv (resolveTracked s k b) := by
  obtain ⟨hnd, hent⟩ := h
  unfold resolveTracked
  cases hget : s.currentUploads.get k with
  | some c =>
    refine ⟨Registry.keys_delete_nodup hnd k, ?_⟩
    intro p hp
    obtain ⟨hpm, hpk⟩ := Registry.mem_delete.mp hp
    obtain ⟨hdoc, hhook, hlt⟩ := hent p hpm
    obtain ⟨hcdoc, hchook, hclt⟩ := hent (k, c) (Registry.mem_of_get hget)
    have hpc : p.2 ≠ c := by
      intro he
      rw [he, hchook] at hhook
      injection hhook with hv
      exact hpk hv.symm
    exact ⟨mem_replaceWith_of_ne hdoc hpc, hhook, Nat.lt_succ_of_lt hlt⟩
  | none =>
    refine ⟨Registry.keys_delete_nodup hnd k, ?_⟩
    intro p hp
    obtain ⟨hpm, _⟩ := Registry.mem_delete.mp hp
    obtain ⟨hdoc, hhook, hlt⟩ := hent p hpm
    exact ⟨hdoc, hhook, Nat.lt_succ_of_lt hlt⟩

theorem inv_externalDelete {s : EditorState} (h : ModuleInv s) (id : BlotId) :
    ModuleInv (externalDelete s id) := by
  obtain ⟨hnd, hent⟩ := h
  unfold externalDelete
  split
  · split
    · rename_i k0 hhook
      split
      · rename_i hk0
        refine ⟨Registry.keys_delete_nodup hnd k0, ?_⟩
        intro p hp
        obtain ⟨hpm, hpk⟩ := Registry.mem_delete.mp hp
        obtain ⟨hdoc, hph, hlt⟩ := hent p hpm
        have hpne : p.2 ≠ id := by
          intro he
          rw [he, hhook] at hph
          injection hph with hv
          exact hpk hv.symm
        refine ⟨List.mem_filter.mpr ⟨hdoc, by simp [hpne]⟩, hph, hlt⟩
      · rename_i hk0
        refine ⟨hnd, ?_⟩
        intro p hp
        obtain ⟨hdoc, hph, hlt⟩ := hent p hp
        have hpne : p.2 ≠ id := by
          intro he
          rw [he, hhook] at hph
          injection hph with hv
          have hnone := Registry.get_none_of_not_has hk0
          unfold Registry.get at hnone
          rw [findEntry_eq_none_iff] at hnone
          exact hnone (hv ▸ List.mem_map_of_mem Prod.fst hp)
        refine ⟨List.mem_filter.mpr ⟨hdoc, by simp [hpne]⟩, hph, hlt⟩
    · rename_i hhook
      refine ⟨hnd, ?_⟩
      intro p hp
      obtain ⟨hdoc, hph, hlt⟩ := hent p hp
      have hpne : p.2 ≠ id := by
        intro he
        rw [he, hhook] at hph
        cases hph
      refine ⟨List.mem_filter.mpr ⟨hdoc, by simp [hpne]⟩, hph, hlt⟩
  · exact ⟨hnd, hent⟩

theorem inv_createErrorEmbed {s : EditorState} (h : ModuleInv s)
    (k : Option LookupKey) (msg : String) : ModuleInv (createErrorEmbed s k msg) := by
  obtain ⟨hnd, hent⟩ := h
  cases k with
  | none =>
    refine ⟨hnd, ?_⟩
    intro p hp
    obtain ⟨hdoc, hph, hlt⟩ := hent p hp
    exact ⟨mem_insertAt.mpr (Or.inr hdoc), hph, Nat.lt_succ_of_lt hlt⟩
  | some k =>
    show ModuleInv (resolveTracked { s with log := s.log ++ [msg] } k
      (Blot.embedError [msg]))
    exact @inv_resolveTracked { s with log := s.log ++ [msg] } ⟨hnd, hent⟩ k
      (Blot.embedError [msg])

theorem inv_createSiteEmbed {s : EditorState} (h : ModuleInv s) (r : ScrapeResult) :
    ModuleInv (createSiteEmbed s r) :=
  inv_resolveTracked h _ _

theorem inv_createExternalImageEmbed {s : EditorState} (h : ModuleInv s)
    (r : ScrapeResult) : ModuleInv (createExternalImageEmbed s r) :=
  inv_resolveTracked h _ _

theorem inv_onImageUploadSuccess {s : EditorState} (h : ModuleInv s) (f : Nat)
    (u : String) : ModuleInv (onImageUploadSuccess s f u) :=
  inv_resolveTracked h _ _

theorem inv_scrapeSuccess {s : EditorState} (h : ModuleInv s) (url : String)
    (r : ScrapeResult) : ModuleInv (scrapeSuccess s url r) := by
  unfold scrapeSuccess
  by_cases h1 : r.type = "site"
  · rw [if_pos h1]
    exact inv_createSiteEmbed h r
  · rw [if_neg h1]
    by_cases h2 : r.type = "image"
    · rw [if_pos h2]
      exact inv_createExternalImageEmbed h r
    · rw [if_neg h2]
      exact inv_createErrorEmbed h _ _

theorem inv_scrapeFailure {s : EditorState} (h : ModuleInv s) (url : String)
    (e : AjaxFailure) : ModuleInv (scrapeFailure s url e) := by
  unfold scrapeFailure
  split
  · split
    · split
      · exact inv_createErrorEmbed h _ _
      · exact inv_createErrorEmbed h _ _
    · exact inv_createErrorEmbed h _ _
  · exact inv_createErrorEmbed h _ _

theorem inv_applyOp {s : EditorState} (h : ModuleInv s) (o : Op) :
    ModuleInv (applyOp s o) := by
  cases o with
  | create k => exact inv_createLoadingEmbed h k
  | extDelete id => exact inv_externalDelete h id
  | scrapeOk url r => exact inv_scrapeSuccess h url r
  | scrapeErr url e => exact inv_scrapeFailure h url e
  | uploadOk f u => exact inv_onImageUploadSuccess h f u
  | resolveErr k msg => exact inv_createErrorEmbed h k msg

theorem inv_run {s : EditorState} (h : ModuleInv s) (ops : List Op) :
    ModuleInv (run s ops) := by
  induction ops generalizing s with
  | nil => exact h
  | cons o rest ih => exact ih (inv_applyOp h o)

/-! ## Characterization lemmas for the operations -/

theorem createLoadingEmbed_uploads (s : EditorState) (k : LookupKey) :
    (createLoadingEmbed s k).currentUploads = s.currentUploads.set k s.nextId := rfl

theorem createLoadingEmbed_hooks (s : EditorState) (k : LookupKey) :
    (createLoadingEmbed s k).hooks = (s.nextId, k) :: s.hooks := rfl

theorem createLoadingEmbed_nextId (s : EditorState) (k : LookupKey) :
    (createLoadingEmbed s k).nextId = s.nextId + 1 := rfl

theorem createLoadingEmbed_doc_self (s : EditorState) (k : LookupKey) :
    (s.nextId, Blot.loading) ∈ (createLoadingEmbed s k).doc :=
  mem_insertAt.mpr (Or.inl rfl)

theorem createLoadingEmbed_doc_mono {s : EditorState} {q : BlotId × Blot}
    (hq : q ∈ s.doc) (k : LookupKey) : q ∈ (createLoadingEmbed s k).doc :=
  mem_insertAt.mpr (Or.inr hq)

theorem resolveTracked_of_none {s : EditorState} {k : LookupKey} (b : Blot)
    (h : s.currentUploads.get k = none) :
    resolveTracked s k b =
      { s with currentUploads := s.currentUploads.delete k,
               nextId := s.nextId + 1 } := by
  unfold resolveTracked
  rw [h]

theorem resolveTracked_of_some {s : EditorState} {k : LookupKey} {c : BlotId}
    (b : Blot) (h : s.currentUploads.get k = some c) :
    resolveTracked s k b =
      { s with doc := replaceWith s.doc c s.nextId b,
               currentUploads := s.currentUploads.delete k,
               nextId := s.nextId + 1 } := by
  unfold resolveTracked
  rw [h]

theorem resolveTracked_get_none (s : EditorState) (k : LookupKey) (b : Blot) :
    (resolveTracked s k b).currentUploads.get k = none := by
  unfold resolveTracked
  split
  · exact Registry.get_delete_self _ _
  · exact Registry.get_delete_self _ _

theorem createSiteEmbed_eq (s : EditorState) (r : ScrapeResult) :
    createSiteEmbed s r =
      resolveTracked s (.url r.url)
        (Blot.embedLink r.url r.name r.photoUrl r.body) := rfl

theorem createExternalImageEmbed_eq (s : EditorState) (r : ScrapeResult) :
    createExternalImageEmbed s r =
      resolveTracked s (.url r.url) (Blot.embedImage r.photoUrl (some r.name)) := rfl

theorem onImageUploadSuccess_eq (s : EditorState) (f : Nat) (u : String) :
    onImageUploadSuccess s f u =
      resolveTracked s (.file f) (Blot.embedImage u none) := rfl

theorem createErrorEmbed_some_eq (s : EditorState) (k : LookupKey) (msg : String) :
    createErrorEmbed s (some k) msg =
      resolveTracked { s with log := s.log ++ [msg] } k (Blot.embedError [msg]) := rfl

theorem createErrorEmbed_none_eq (s : EditorState) (msg : String) :
    createErrorEmbed s none msg =
      { s with log := s.log ++ [msg],
               doc := insertAt s.doc (min s.lastSelection s.doc.length)
                 (s.nextId, Blot.embedError [msg]),
               nextId := s.nextId + 1 } := rfl

theorem scrapeFailure_some_eq (s : EditorState) (url m em : String) :
    scrapeFailure s url ⟨some m, em⟩ =
      (if m ≠ "" then
        if strStartsWith m "Failed to load URL" then
          createErrorEmbed s (some (.url url))
            "There was an error processing that embed link."
        else createErrorEmbed s (some (.url url)) m
      else createErrorEmbed s (some (.url url)) em) := rfl

/-! ## Claims -/

/-- C1 counterexample: the claim asserts that after any resolution of a
submitted URL key the registry entry for that key is gone, "even though the
success-path constructors delete under the response payload's url field".
Submitting `"a"` and resolving it with a success payload whose `url` field is
`"b"` leaves the entry for `"a"` in place: the constructors key exclusively on
the payload's `url`. -/
theorem C1_counterexample :
    (scrapeSuccess (createLoadingEmbed initState (.url "a")) "a"
      ⟨"site", "b", "n", "p", "bd"⟩).currentUploads.get (.url "a") = some 0 := by
  decide

/-- C1 (amended): after `createLoadingEmbed k` the registry maps `k` to the
blot created by that call; an error resolution under `k` removes `k`; a success
resolution removes the entry for the key built from the *payload's* `url`
field (resp. the file key), which coincides with the submitted key only when
the payload echoes the submitted URL. -/
theorem C1_create_then_resolve (s : EditorState) (k : LookupKey)
    (r : ScrapeResult) (f : Nat) (u msg : String) :
    (createLoadingEmbed s k).currentUploads.get k = some s.nextId ∧
    (createErrorEmbed s (some k) msg).currentUploads.get k = none ∧
    (createSiteEmbed s r).currentUploads.get (.url r.url) = none ∧
    (createExternalImageEmbed s r).currentUploads.get (.url r.url) = none ∧
    (onImageUploadSuccess s f u).currentUploads.get (.file f) = none := by
  refine ⟨?_, ?_, ?_, ?_, ?_⟩
  · rw [createLoadingEmbed_uploads]
    exact Registry.get_set_self _ _ _
  · rw [createErrorEmbed_some_eq]
    exact resolveTracked_get_none _ _ _
  · rw [createSiteEmbed_eq]
    exact resolveTracked_get_none _ _ _
  · rw [createExternalImageEmbed_eq]
    exact resolveTracked_get_none _ _ _
  · rw [onImageUploadSuccess_eq]
    exact resolveTracked_get_none _ _ _

/-- C2 counterexample: the claim's invariant says a still-live unresolved
placeholder's key is present.  Submit the same URL twice, then externally
delete the first (orphaned) placeholder: its stale hook removes the entry of
the second placeholder, which is still attached and unresolved while its key is
absent. -/
theorem C2_counterexample :
    (run initState [.create (.url "a"), .create (.url "a"),
        .extDelete 0]).currentUploads.get (.url "a") = none ∧
    (1, Blot.loading) ∈
      (run initState [.create (.url "a"), .create (.url "a"),
        .extDelete 0]).doc := by
  constructor
  · decide
  · decide

/-- C2 (amended): in every reachable state the registry holds at most one
entry per key, and every entry points to a loading blot still attached to the
document whose delete hook captures exactly that entry's key — but the
converse direction of the claimed iff fails (see the counterexample): a
still-live unresolved placeholder's key can be absent after a duplicate
submission's orphan is externally deleted. -/
theorem C2_registry_invariant (ops : List Op) :
    (((run initState ops).currentUploads.entries.map Prod.fst).Nodup) ∧
    ∀ p ∈ (run initState ops).currentUploads.entries,
      (p.2, Blot.loading) ∈ (run initState ops).doc ∧
      hookFor (run initState ops).hooks p.2 = some p.1 := by
  obtain ⟨hnd, hent⟩ := inv_run inv_initState ops
  exact ⟨hnd, fun p hp => ⟨(hent p hp).1, (hent p hp).2.1⟩⟩

/-- C3 counterexample: the claim says that when the deletion hook has already
fired, `resolve(k, error)` with key `k` inserts a standalone error node at the
last selection.  In the code the standalone insertion happens only for a null
key: with a non-null key and an absent registry entry, the error blot is
created detached and never attached — after create, delete, and error
resolution under the same key the document is empty. -/
theorem C3_counterexample :
    (run initState [.create (.url "a"), .extDelete 0,
      .resolveErr (some (.url "a")) "boom"]).doc = [] := by
  decide

/-- C3 (amended): when the deletion hook has fired (registry entry absent) and
`createErrorEmbed` is called with a non-null key, no node is inserted and
nothing is replaced — the document is unchanged, the registry is unchanged,
and only the log grows; the standalone insertion at the last known selection
occurs only when the key is null. -/
theorem C3_error_after_delete (s : EditorState) (k : LookupKey) (msg : String)
    (h : s.currentUploads.get k = none) :
    (createErrorEmbed s (some k) msg).doc = s.doc ∧
    (createErrorEmbed s (some k) msg).currentUploads = s.currentUploads ∧
    (createErrorEmbed s (some k) msg).log = s.log ++ [msg] ∧
    (createErrorEmbed s none msg).doc =
      insertAt s.doc (min s.lastSelection s.doc.length)
        (s.nextId, Blot.embedError [msg]) := by
  have h' : ({ s with log := s.log ++ [msg] } : EditorState).currentUploads.get k
      = none := h
  rw [createErrorEmbed_some_eq, resolveTracked_of_none _ h', createErrorEmbed_none_eq]
  refine ⟨rfl, ?_, rfl, rfl⟩
  exact Registry.delete_of_get_none h

/-- C3 witness. -/
theorem C3_error_after_delete_witness :
    initState.currentUploads.get (.url "x") = none ∧
    (createErrorEmbed initState (some (.url "x")) "m").doc = initState.doc :=
  ⟨rfl, (C3_error_after_delete initState (.url "x") "m" rfl).1⟩

/-- C4: when the deletion hook has fired before a success resolution, the
resolution is a silent no-op: the document is unchanged (nothing inserted or
replaced), the registry is unchanged (the key stays absent), and nothing is
logged.  The operations are total functions — no exception is modelled or
needed. -/
theorem C4_success_after_delete (s : EditorState) (r : ScrapeResult) (f : Nat)
    (u : String) :
    (s.currentUploads.get (.url r.url) = none →
      (createSiteEmbed s r).doc = s.doc ∧
      (createSiteEmbed s r).currentUploads = s.currentUploads ∧
      (createSiteEmbed s r).log = s.log ∧
      (createExternalImageEmbed s r).doc = s.doc ∧
      (createExternalImageEmbed s r).currentUploads = s.currentUploads) ∧
    (s.currentUploads.get (.file f) = none →
      (onImageUploadSuccess s f u).doc = s.doc ∧
      (onImageUploadSuccess s f u).currentUploads = s.currentUploads ∧
      (onImageUploadSuccess s f u).log = s.log) := by
  constructor
  · intro h
    rw [createSiteEmbed_eq, createExternalImageEmbed_eq,
      resolveTracked_of_none (Blot.embedLink r.url r.name r.photoUrl r.body) h,
      resolveTracked_of_none (Blot.embedImage r.photoUrl (some r.name)) h]
    exact ⟨rfl, Registry.delete_of_get_none h, rfl, rfl,
      Registry.delete_of_get_none h⟩
  · intro h
    rw [onImageUploadSuccess_eq, resolveTracked_of_none _ h]
    exact ⟨rfl, Registry.delete_of_get_none h, rfl⟩

/-- C4 witness. -/
theorem C4_success_after_delete_witness :
    initState.currentUploads.get (.url "u") = none ∧
    (createSiteEmbed initState ⟨"site", "u", "n", "p", "b"⟩).doc =
      initState.doc ∧
    initState.currentUploads.get (.file 0) = none ∧
    (onImageUploadSuccess initState 0 "r").currentUploads =
      initState.currentUploads :=
  ⟨rfl, ((C4_success_after_delete initState ⟨"site", "u", "n", "p", "b"⟩ 0
      "r").1 rfl).1,
    rfl, ((C4_success_after_delete initState ⟨"site", "u", "n", "p", "b"⟩ 0
      "r").2 rfl).2.1⟩

/-- C5: a scrape failure whose payload carries a truthy
`response.data.message` resolves as an error under the submitted URL key; a
message starting with "Failed to load URL" is replaced by the generic
"There was an error processing that embed link.", any other message is carried
into the error node verbatim. -/
theorem C5_failure_message_mapping (s : EditorState) (url m em : String)
    (b : BlotId) (hb : s.currentUploads.get (.url url) = some b)
    (hm : m ≠ "") :
    (strStartsWith m "Failed to load URL" = true →
      (scrapeFailure s url ⟨some m, em⟩).doc =
        replaceWith s.doc b s.nextId
          (Blot.embedError ["There was an error processing that embed link."]) ∧
      (scrapeFailure s url ⟨some m, em⟩).currentUploads.get (.url url) = none) ∧
    (strStartsWith m "Failed to load URL" = false →
      (scrapeFailure s url ⟨some m, em⟩).doc =
        replaceWith s.doc b s.nextId (Blot.embedError [m]) ∧
      (scrapeFailure s url ⟨some m, em⟩).currentUploads.get (.url url) = none) := by
  constructor
  · intro hsw
    have hb' : ({ s with log :=
        s.log ++ ["There was an error processing that embed link."] } :
        EditorState).currentUploads.get (.url url) = some b := hb
    rw [scrapeFailure_some_eq, if_pos hm, if_pos hsw, createErrorEmbed_some_eq,
      resolveTracked_of_some _ hb']
    exact ⟨rfl, Registry.get_delete_self _ _⟩
  · intro hsw
    have hsw' : ¬ strStartsWith m "Failed to load URL" = true := by
      simp [hsw]
    have hb' : ({ s with log := s.log ++ [m] } :
        EditorState).currentUploads.get (.url url) = some b := hb
    rw [scrapeFailure_some_eq, if_pos hm, if_neg hsw', createErrorEmbed_some_eq,
      resolveTracked_of_some _ hb']
    exact ⟨rfl, Registry.get_delete_self _ _⟩

/-- C5 witness. -/
theorem C5_failure_message_mapping_witness :
    (createLoadingEmbed initState (.url "u")).currentUploads.get (.url "u") =
      some 0 ∧
    ("Failed to load URL: x" : String) ≠ "" ∧
    (scrapeFailure (createLoadingEmbed initState (.url "u")) "u"
      ⟨some "Failed to load URL: x", "e"⟩).currentUploads.get (.url "u") =
        none :=
  ⟨rfl, by decide,
    ((C5_failure_message_mapping (createLoadingEmbed initState (.url "u")) "u"
      "Failed to load URL: x" "e" 0 rfl (by decide)).1 (by decide)).2⟩

/-- C6: a scrape success response whose `type` is neither "site" nor "image"
resolves the submitted URL key as an error node carrying exactly
"That type of embed is not currently supported." (and logs it); no other embed
kind is constructed. -/
theorem C6_unsupported_type (s : EditorState) (url : String) (r : ScrapeResult)
    (b : BlotId) (h1 : ¬ r.type = "site") (h2 : ¬ r.type = "image")
    (hb : s.currentUploads.get (.url url) = some b) :
    (scrapeSuccess s url r).doc =
      replaceWith s.doc b s.nextId
        (Blot.embedError ["That type of embed is not currently supported."]) ∧
    (scrapeSuccess s url r).currentUploads.get (.url url) = none ∧
    (scrapeSuccess s url r).log =
      s.log ++ ["That type of embed is not currently supported."] := by
  have hb' : ({ s with log :=
      s.log ++ ["That type of embed is not currently supported."] } :
      EditorState).currentUploads.get (.url url) = some b := hb
  unfold scrapeSuccess
  rw [if_neg h1, if_neg h2, createErrorEmbed_some_eq,
    resolveTracked_of_some _ hb']
  exact ⟨rfl, Registry.get_delete_self _ _, rfl⟩

/-- C6 witness. -/
theorem C6_unsupported_type_witness :
    ¬ ("unknown" : String) = "site" ∧
    (createLoadingEmbed initState (.url "u")).currentUploads.get (.url "u") =
      some 0 ∧
    (scrapeSuccess (createLoadingEmbed initState (.url "u")) "u"
      ⟨"unknown", "u", "n", "p", "b"⟩).currentUploads.get (.url "u") = none :=
  ⟨by decide, rfl,
    (C6_unsupported_type (createLoadingEmbed initState (.url "u")) "u"
      ⟨"unknown", "u", "n", "p", "b"⟩ 0 (by decide) (by decide) rfl).2.1⟩

/-- C7: a "site" scrape result replaces the tracked placeholder with a link
embed carrying exactly `url ↦ url`, `name ↦ name`, `photoUrl ↦ linkImage`,
`body ↦ excerpt`; an "image" result replaces it with an image embed whose
displayed URL is the payload's `photoUrl` (not its `url`) and whose alt text is
`name`. -/
theorem C7_field_mapping (s : EditorState) (r : ScrapeResult) (b : BlotId)
    (hb : s.currentUploads.get (.url r.url) = some b) :
    (createSiteEmbed s r).doc =
      replaceWith s.doc b s.nextId
        (Blot.embedLink r.url r.name r.photoUrl r.body) ∧
    (createExternalImageEmbed s r).doc =
      replaceWith s.doc b s.nextId
        (Blot.embedImage r.photoUrl (some r.name)) ∧
    (createSiteEmbed s r).currentUploads.get (.url r.url) = none ∧
    (createExternalImageEmbed s r).currentUploads.get (.url r.url) = none := by
  rw [createSiteEmbed_eq, createExternalImageEmbed_eq,
    resolveTracked_of_some (Blot.embedLink r.url r.name r.photoUrl r.body) hb,
    resolveTracked_of_some (Blot.embedImage r.photoUrl (some r.name)) hb]
  exact ⟨rfl, rfl, Registry.get_delete_self _ _, Registry.get_delete_self _ _⟩

/-- C7 witness. -/
theorem C7_field_mapping_witness :
    (createLoadingEmbed initState (.url "u")).currentUploads.get (.url "u") =
      some 0 ∧
    (createSiteEmbed (createLoadingEmbed initState (.url "u"))
      ⟨"site", "u", "nm", "ph", "bd"⟩).doc =
        replaceWith (createLoadingEmbed initState (.url "u")).doc 0
          (createLoadingEmbed initState (.url "u")).nextId
          (Blot.embedLink "u" "nm" "ph" "bd") :=
  ⟨rfl, (C7_field_mapping (createLoadingEmbed initState (.url "u"))
    ⟨"site", "u", "nm", "ph", "bd"⟩ 0 rfl).1⟩

/-- C9: the claim says the error-resolution path never dereferences an absent
placeholder and never throws.  `createErrorEmbed` in the current module
satisfies it, but `onImageUploadFailure` in the earlier revision
(`src/unnamed/part_000` line 268) repeats `loadingBlot.replaceWith(errorBlot)`
unconditionally after the guard, contradicting the guard and comment two lines
above: when the placeholder was already deleted the lookup returns `undefined`
and the call throws a `TypeError`.  Evaluated at the failing input. -/
theorem C9_upload_failure_throws :
    onImageUploadFailure initState (some (.file 0)) "upload failed" =
      .error "TypeError: loadingBlot is undefined" := rfl

/-! ## Orphaned placeholders -/

theorem filter_key_length_one {l : List (LookupKey × BlotId)} {k : LookupKey}
    {v : BlotId} (hnd : (l.map Prod.fst).Nodup) (h : findEntry l k = some v) :
    (l.filter (fun p => p.1 = k)).length = 1 := by
  induction l with
  | nil => simp at h
  | cons p rest ih =>
    obtain ⟨k0, v0⟩ := p
    simp only [List.map_cons, List.nodup_cons] at hnd
    by_cases hk : k0 = k
    · subst hk
      have hrest : rest.filter (fun p => p.1 = k0) = [] := by
        apply List.filter_eq_nil_iff.mpr
        intro q hq
        simp only [decide_eq_true_eq]
        intro hc
        exact hnd.1 (hc ▸ List.mem_map_of_mem Prod.fst hq)
      simp [List.filter_cons, hrest]
    · simp only [findEntry_cons, if_neg hk] at h
      simpa [List.filter_cons, hk] using ih hnd.2 h

/-- A blot orphaned from the registry: still attached and loading, with no
registry entry storing its id, so no resolution can ever target it. -/
def OrphanInv (blot1 : BlotId) (t : EditorState) : Prop :=
  (blot1, Blot.loading) ∈ t.doc ∧
  (∀ p ∈ t.currentUploads.entries, p.2 ≠ blot1) ∧
  blot1 < t.nextId

theorem orphanInv_resolveTracked {t : EditorState} {blot1 : BlotId}
    (h : OrphanInv blot1 t) (k : LookupKey) (b : Blot) :
    OrphanInv blot1 (resolveTracked t k b) := by
  obtain ⟨hdoc, hval, hlt⟩ := h
  unfold resolveTracked
  cases hget : t.currentUploads.get k with
  | some c =>
    have hc : c ≠ blot1 := hval (k, c) (Registry.mem_of_get hget)
    refine ⟨mem_replaceWith_of_ne hdoc (Ne.symm hc), ?_, Nat.lt_succ_of_lt hlt⟩
    intro p hp
    exact hval p (Registry.mem_delete.mp hp).1
  | none =>
    refine ⟨hdoc, ?_, Nat.lt_succ_of_lt hlt⟩
    intro p hp
    exact hval p (Registry.mem_delete.mp hp).1

theorem orphanInv_createLoadingEmbed {t : EditorState} {blot1 : BlotId}
    (h : OrphanInv blot1 t) (k : LookupKey) :
    OrphanInv blot1 (createLoadingEmbed t k) := by
  obtain ⟨hdoc, hval, hlt⟩ := h
  refine ⟨createLoadingEmbed_doc_mono hdoc k, ?_, Nat.lt_succ_of_lt hlt⟩
  intro p hp
  have hp' : p ∈ (t.currentUploads.set k t.nextId).entries := hp
  rcases Registry.mem_set_cases hp' with hpe | ⟨hpm, _⟩
  · rw [hpe]
    exact Ne.symm (Nat.ne_of_lt hlt)
  · exact hval p hpm

theorem orphanInv_externalDelete {t : EditorState} {blot1 id : BlotId}
    (h : OrphanInv blot1 t) (hne : id ≠ blot1) :
    OrphanInv blot1 (externalDelete t id) := by
  obtain ⟨hdoc, hval, hlt⟩ := h
  unfold externalDelete
  split
  · refine ⟨List.mem_filter.mpr ⟨hdoc, by simp [Ne.symm hne]⟩, ?_, hlt⟩
    split
    · split
      · intro p hp
        exact hval p (Registry.mem_delete.mp hp).1
      · exact hval
    · exact hval
  · exact ⟨hdoc, hval, hlt⟩

theorem orphanInv_createErrorEmbed {t : EditorState} {blot1 : BlotId}
    (h : OrphanInv blot1 t) (k : Option LookupKey) (msg : String) :
    OrphanInv blot1 (createErrorEmbed t k msg) := by
  obtain ⟨hdoc, hval, hlt⟩ := h
  cases k with
  | none =>
    exact ⟨mem_insertAt.mpr (Or.inr hdoc), hval, Nat.lt_succ_of_lt hlt⟩
  | some k =>
    rw [createErrorEmbed_some_eq]
    exact @orphanInv_resolveTracked { t with log := t.log ++ [msg] } blot1
      ⟨hdoc, hval, hlt⟩ k (Blot.embedError [msg])

theorem orphanInv_applyOp {t : EditorState} {blot1 : BlotId}
    (h : OrphanInv blot1 t) (o : Op) (ho : o ≠ .extDelete blot1) :
    OrphanInv blot1 (applyOp t o) := by
  cases o with
  | create k => exact orphanInv_createLoadingEmbed h k
  | extDelete id =>
    refine orphanInv_externalDelete h fun he => ho ?_
    rw [he]
  | scrapeOk url r =>
    show OrphanInv blot1 (scrapeSuccess t url r)
    unfold scrapeSuccess
    split
    · rw [createSiteEmbed_eq]
      exact orphanInv_resolveTracked h _ _
    · split
      · rw [createExternalImageEmbed_eq]
        exact orphanInv_resolveTracked h _ _
      · exact orphanInv_createErrorEmbed h _ _
  | scrapeErr url e =>
    show OrphanInv blot1 (scrapeFailure t url e)
    unfold scrapeFailure
    split
    · split
      · split
        · exact orphanInv_createErrorEmbed h _ _
        · exact orphanInv_createErrorEmbed h _ _
      · exact orphanInv_createErrorEmbed h _ _
    · exact orphanInv_createErrorEmbed h _ _
  | uploadOk f u =>
    rw [show applyOp t (.uploadOk f u) = onImageUploadSuccess t f u from rfl,
      onImageUploadSuccess_eq]
    exact orphanInv_resolveTracked h _ _
  | resolveErr k msg => exact orphanInv_createErrorEmbed h k msg

theorem orphanInv_run {t : EditorState} {blot1 : BlotId}
    (h : OrphanInv blot1 t) (ops : List Op)
    (hops : Op.extDelete blot1 ∉ ops) : OrphanInv blot1 (run t ops) := by
  induction ops generalizing t with
  | nil => exact h
  | cons o rest ih =>
    simp only [List.mem_cons, not_or] at hops
    exact ih (orphanInv_applyOp h o fun he => hops.1 he.symm) hops.2

/-- C8: submitting the same key twice before resolution leaves the registry
holding exactly the second placeholder under the key (one entry), the first
placeholder's id is no longer stored under any key, and as long as the
orphaned first placeholder is not externally deleted it stays in the document
as a loading blot through any further operations — no resolution ever replaces
it. -/
theorem C8_duplicate_submission (s : EditorState) (k : LookupKey)
    (h : ModuleInv s) :
    (createLoadingEmbed (createLoadingEmbed s k) k).currentUploads.get k =
      some (s.nextId + 1) ∧
    ((createLoadingEmbed (createLoadingEmbed s k) k).currentUploads.entries.filter
      (fun p => p.1 = k)).length = 1 ∧
    (∀ k', (createLoadingEmbed (createLoadingEmbed s k) k).currentUploads.get k' ≠
      some s.nextId) ∧
    (∀ ops : List Op, Op.extDelete s.nextId ∉ ops →
      (s.nextId, Blot.loading) ∈
        (run (createLoadingEmbed (createLoadingEmbed s k) k) ops).doc) := by
  obtain ⟨hnd, hent⟩ := h
  have hup : (createLoadingEmbed (createLoadingEmbed s k) k).currentUploads =
      (s.currentUploads.set k s.nextId).set k (s.nextId + 1) := rfl
  have hget : (createLoadingEmbed (createLoadingEmbed s k) k).currentUploads.get k =
      some (s.nextId + 1) := by
    rw [hup]
    exact Registry.get_set_self _ _ _
  have hvals : ∀ p ∈ (createLoadingEmbed (createLoadingEmbed s k) k).currentUploads.entries,
      p.2 ≠ s.nextId := by
    intro p hp
    rw [hup] at hp
    rcases Registry.mem_set_cases hp with hpe | ⟨hpm, hpk⟩
    · rw [hpe]
      exact Nat.succ_ne_self s.nextId
    · rcases Registry.mem_set_cases hpm with hpe' | ⟨hpm', _⟩
      · exact absurd (by rw [hpe']) hpk
      · exact Nat.ne_of_lt (hent p hpm').2.2
  refine ⟨hget, ?_, ?_, ?_⟩
  · rw [hup]
    exact filter_key_length_one
      (Registry.keys_set_nodup (Registry.keys_set_nodup hnd k s.nextId) k
        (s.nextId + 1))
      (by rw [← hup]; exact hget)
  · intro k' hk'
    exact hvals (k', s.nextId) (Registry.mem_of_get hk') rfl
  · intro ops hops
    refine (orphanInv_run ⟨?_, hvals, ?_⟩ ops hops).1
    · exact createLoadingEmbed_doc_mono (createLoadingEmbed_doc_self s k) k
    · show s.nextId < s.nextId + 1 + 1
      omega

/-- C8 witness. -/
theorem C8_duplicate_submission_witness :
    (createLoadingEmbed (createLoadingEmbed initState (.url "a"))
      (.url "a")).currentUploads.get (.url "a") = some (initState.nextId + 1) :=
  (C8_duplicate_submission initState (.url "a") inv_initState).1

/-- Characterization of `externalDelete` when the blot is attached, has a
registered hook, and the hook's key is present. -/
theorem externalDelete_eq_of (s : EditorState) (id : BlotId) (k : LookupKey)
    (hin : s.doc.any (fun p => p.1 = id) = true)
    (hhk : hookFor s.hooks id = some k)
    (hhas : s.currentUploads.has k = true) :
    externalDelete s id =
      { s with doc := s.doc.filter (fun p => p.1 ≠ id),
               currentUploads := s.currentUploads.delete k } := by
  unfold externalDelete
  rw [if_pos hin, hhk]
  show ({ s with
          doc := s.doc.filter (fun p => p.1 ≠ id)
          currentUploads := if s.currentUploads.has k = true then
            s.currentUploads.delete k else s.currentUploads } : EditorState) = _
  rw [if_pos hhas]

/-- C10 (implicit): the delete hook armed by `createLoadingEmbed` removes
whatever entry currently sits under its captured key without checking that the
stored node is the node being deleted.  After a duplicate submission under `k`,
externally deleting the orphaned first placeholder removes the registry entry
of the second, still-attached, unresolved placeholder: its key reads absent
while it remains in the document, and the first placeholder is gone. -/
theorem C10_stale_hook_deletes_live_entry (s : EditorState) (k : LookupKey) :
    (externalDelete (createLoadingEmbed (createLoadingEmbed s k) k)
      s.nextId).currentUploads.get k = none ∧
    (s.nextId + 1, Blot.loading) ∈
      (externalDelete (createLoadingEmbed (createLoadingEmbed s k) k)
        s.nextId).doc ∧
    (s.nextId, Blot.loading) ∉
      (externalDelete (createLoadingEmbed (createLoadingEmbed s k) k)
        s.nextId).doc := by
  have hdoc1 : (s.nextId, Blot.loading) ∈
      (createLoadingEmbed (createLoadingEmbed s k) k).doc :=
    createLoadingEmbed_doc_mono (createLoadingEmbed_doc_self s k) k
  have hdoc2 : (s.nextId + 1, Blot.loading) ∈
      (createLoadingEmbed (createLoadingEmbed s k) k).doc := by
    have h := createLoadingEmbed_doc_self (createLoadingEmbed s k) k
    rw [createLoadingEmbed_nextId] at h
    exact h
  have hin : ((createLoadingEmbed (createLoadingEmbed s k) k).doc.any
      (fun p => p.1 = s.nextId)) = true :=
    List.any_eq_true.mpr ⟨(s.nextId, Blot.loading), hdoc1, by simp⟩
  have hhk : hookFor (createLoadingEmbed (createLoadingEmbed s k) k).hooks
      s.nextId = some k := by
    show findEntry (((createLoadingEmbed s k).nextId, k) ::
      (s.nextId, k) :: s.hooks) s.nextId = some k
    rw [createLoadingEmbed_nextId, findEntry_cons,
      if_neg (Nat.succ_ne_self s.nextId), findEntry_cons, if_pos rfl]
  have hget2 : (createLoadingEmbed (createLoadingEmbed s k) k).currentUploads.get
      k = some (s.nextId + 1) := by
    show ((s.currentUploads.set k s.nextId).set k
      ((createLoadingEmbed s k).nextId)).get k = some (s.nextId + 1)
    rw [createLoadingEmbed_nextId]
    exact Registry.get_set_self _ _ _
  have hhas : (createLoadingEmbed (createLoadingEmbed s k) k).currentUploads.has
      k = true := by
    unfold Registry.has
    rw [hget2]
    rfl
  rw [externalDelete_eq_of _ _ k hin hhk hhas]
  refine ⟨?_, ?_, ?_⟩
  · exact Registry.get_delete_self _ _
  · exact List.mem_filter.mpr ⟨hdoc2, by simp⟩
  · intro hmem
    have := (List.mem_filter.mp hmem).2
    simp at this
